import Mathlib

/-!
Shallow embedding of `jax-dataloader` (`nbs/core.ipynb`): the `Config` /
`PRNGSequence` pseudo-random key sequence, the `ArrayDataset` wrapper, and the
`DataLoaderJax` batch iterator, together with proofs about them.

External `jax` primitives (`jax.random.PRNGKey`, `jax.random.split`,
`jax.random.permutation`, `jnp` array indexing and slicing) are third-party
library calls, not repository code.  They are modelled by concrete executable
functions capturing exactly the properties the repository relies on:
determinism (all are pure functions of their arguments), `split` producing
distinct fresh keys, `permutation` returning a rearrangement of its input,
and `jnp` integer indexing/slicing following the documented numpy/jax
semantics (negative indices count from the end; slice bounds are clamped;
out-of-bounds integer gather indices are clamped, never an error, per the
jax "sharp bits" documentation).
-/

namespace JaxDataloader

/-- Model of a jax PRNG key: identified by the seed it was derived from and
the sequence of split positions taken from that seed (`jax.random.split` is a
deterministic injective derivation, which is all the repository relies on). -/
structure Key where
  seed : Nat
  path : List Nat
deriving DecidableEq, Repr

/-- Model of `jax.random.PRNGKey(seed)`. -/
def PRNGKey (seed : Nat) : Key := ⟨seed, []⟩

/-- Model of `jax.random.split(key, num)`: `num` fresh keys, each a distinct
deterministic derivative of `key`. -/
def randomSplit (k : Key) (num : Nat) : List Key :=
  (List.range num).map (fun i => ⟨k.seed, k.path ++ [i]⟩)

/-- Model of `jax.random.permutation(key, xs)`: a deterministic, key-dependent
rearrangement of `xs` (modelled as a rotation, which captures the contract the
repository relies on: a pure function of `(key, xs)` whose result is a
permutation of `xs`). -/
def randomPermutation (k : Key) (xs : List Nat) : List Nat :=
  let r := (k.seed + k.path.sum) % (xs.length + 1)
  xs.drop r ++ xs.take r

/-- `Config` dataclass (cell 5 of `nbs/core.ipynb`). -/
structure Config where
  rng_reserve_size : Int
  global_seed : Nat
deriving DecidableEq, Repr

/-- `Config.default()`: `rng_reserve_size=1, global_seed=42`. -/
def Config.default : Config := ⟨1, 42⟩

/-- State of a `PRNGSequence`: the current root key `_key` and the deque of
unused subkeys `_subkeys` (front of the deque at the head of the list). -/
structure PRNGSequenceState where
  key : Key
  subkeys : List Key
deriving DecidableEq, Repr

/-- `PRNGSequence.__init__(seed)`. -/
def PRNGSequence.init (seed : Nat) : PRNGSequenceState :=
  ⟨PRNGKey seed, []⟩

/-- `PRNGSequence.reserve(num)`: when `num > 0`, split the root key into
`num + 1` keys; the first becomes the new root, the rest are appended to the
deque.  When `num ≤ 0` this is a no-op. -/
def PRNGSequence.reserve (st : PRNGSequenceState) (num : Int) : PRNGSequenceState :=
  if 0 < num then
    let newKeys := randomSplit st.key (num.toNat + 1)
    { key := newKeys.headD st.key, subkeys := st.subkeys ++ newKeys.tail }
  else st

/-- `self._subkeys.popleft()`: pop the front of the deque; `none` models
Python's `IndexError: pop from an empty deque`. -/
def PRNGSequence.pop (st : PRNGSequenceState) : Option (Key × PRNGSequenceState) :=
  match st.subkeys with
  | [] => none
  | k :: rest => some (k, { st with subkeys := rest })

/-- `PRNGSequence.__next__`: refill from `get_config().rng_reserve_size` when
the deque is empty, then pop the front.  Returns `none` when the pop finds the
deque still empty (Python raises `IndexError: pop from an empty deque`). -/
def PRNGSequence.next (reserveSize : Int) (st : PRNGSequenceState) :
    Option (Key × PRNGSequenceState) :=
  PRNGSequence.pop
    (if st.subkeys.isEmpty then PRNGSequence.reserve st reserveSize else st)

/-- One call made to a `PRNGSequence`. -/
inductive PCall where
  | reserve (num : Int)
  | next
deriving DecidableEq, Repr

/-- Run a sequence of calls against a `PRNGSequence`, recording the key
returned by each `next` call.  A failing `next` (empty deque after a no-op
refill) aborts the run, recorded as a trailing `none`. -/
def runCalls (reserveSize : Int) : PRNGSequenceState → List PCall → List (Option Key)
  | _, [] => []
  | st, PCall.reserve n :: cs => runCalls reserveSize (PRNGSequence.reserve st n) cs
  | st, PCall.next :: cs =>
    match PRNGSequence.next reserveSize st with
    | some (k, st') => some k :: runCalls reserveSize st' cs
    | none => [none]

/-- `ArrayDataset.__init__(*arrays)`: the assertion
`all(arrays[0].shape[0] == arr.shape[0] for arr in arrays)` (lazy generator:
with no arrays `all` is vacuously true and `arrays[0]` is never evaluated).
Buffers are modelled as lists of naturals (first axis only); `none` models the
`AssertionError` (the spec's `ShapeMismatch`). -/
def ArrayDataset.init (arrays : List (List Nat)) : Option (List (List Nat)) :=
  if arrays.all (fun a => (arrays.headD []).length = a.length) then some arrays
  else none

/-- `ArrayDataset.__len__`: `self.arrays[0].shape[0]`. -/
def ArrayDataset.len (arrays : List (List Nat)) : Nat :=
  (arrays.headD []).length

/-- Model of `jnp` integer indexing `arr[i]` on a concrete array (external jax
semantics): a negative index counts from the end (`i + len`), and the
resulting gather index is clamped into `[0, len - 1]` — out-of-bounds integer
indexing does not raise in jax.  Indexing a length-0 axis is modelled as
`none`. -/
def jnpGet (xs : List Nat) (i : Int) : Option Nat :=
  match xs with
  | [] => none
  | _ :: _ =>
    let j : Int := if i < 0 then i + xs.length else i
    some (xs.getD (min (max j 0) ((xs.length : Int) - 1)).toNat 0)

/-- `ArrayDataset.__getitem__(index)` for a scalar index:
`tuple(arr[index] for arr in self.arrays)`; the first failing component aborts
the whole access. -/
def ArrayDataset.getitem : List (List Nat) → Int → Option (List Nat)
  | [], _ => some []
  | a :: rest, i =>
    match jnpGet a i, ArrayDataset.getitem rest i with
    | some v, some vs => some (v :: vs)
    | _, _ => none

/-- Normalise one Python slice bound for a sequence of length `len`
(step 1 slices): negative bounds count from the end, and the result is
clamped into `[0, len]`. -/
def pyBound (len : Nat) (i : Int) : Nat :=
  if i < 0 then ((len : Int) + i).toNat else min i.toNat len

/-- Python/`jnp` slice `xs[a:b]` (step 1). -/
def pySlice (xs : List Nat) (a b : Int) : List Nat :=
  (xs.take (pyBound xs.length b)).drop (pyBound xs.length a)

/-- Python/`jnp` slice `xs[a:]`. -/
def pySliceFrom (xs : List Nat) (a : Int) : List Nat :=
  xs.drop (pyBound xs.length a)

/-- State of a `DataLoaderJax`: the dataset is abstracted by its length
`data_len` (`len(dataset)`); `indices` is the jnp index array, `pose` the
cursor.  `batch_size` is an `Int` because the constructor performs no
validation of it. -/
structure DataLoaderJaxState where
  data_len : Nat
  batch_size : Int
  shuffle : Bool
  drop_last : Bool
  keys : PRNGSequenceState
  indices : List Nat
  pose : Int
deriving DecidableEq, Repr

/-- `DataLoaderJax._shuffle`: when `self.shuffle`, replace `indices` by
`jax.random.permutation(next(self.keys), self.indices)`.  `none` models the
`IndexError` that `next(self.keys)` raises when the key deque stays empty. -/
def DataLoaderJax._shuffle (cfg : Config) (st : DataLoaderJaxState) :
    Option DataLoaderJaxState :=
  if st.shuffle then
    match PRNGSequence.next cfg.rng_reserve_size st.keys with
    | none => none
    | some (k, ks) =>
      some { st with keys := ks, indices := randomPermutation k st.indices }
  else some st

/-- `DataLoaderJax.__init__`: stores the policy unchecked (there is no
`batch_size` validation), seeds the key sequence from
`get_config().global_seed` (there is no per-loader seed parameter), sets
`indices = jnp.arange(len(dataset))`, `pose = 0`, and calls `self._shuffle()`. -/
def DataLoaderJax.init (cfg : Config) (data_len : Nat) (batch_size : Int)
    (shuffle : Bool) (drop_last : Bool) : Option DataLoaderJaxState :=
  DataLoaderJax._shuffle cfg
    { data_len := data_len, batch_size := batch_size, shuffle := shuffle,
      drop_last := drop_last, keys := PRNGSequence.init cfg.global_seed,
      indices := List.range data_len, pose := 0 }

/-- Result of one `DataLoaderJax.__next__` call: a batch of gathered indices
together with the successor state, a `StopIteration` (after the epoch-end
reset/reshuffle side effect), or the key-sequence `IndexError` raised inside
that reshuffle. -/
inductive NextResult where
  | batch (b : List Nat) (st : DataLoaderJaxState)
  | stop (st : DataLoaderJaxState)
  | keyError
deriving DecidableEq, Repr

/-- `DataLoaderJax.__next__`: full-batch branch, tail branch (which advances
`pose` by the full `batch_size`), and `_stop_iteration` (reset `pose`,
reshuffle, raise `StopIteration`). -/
def DataLoaderJax.next (cfg : Config) (st : DataLoaderJaxState) : NextResult :=
  if st.pose + st.batch_size ≤ (st.data_len : Int) then
    NextResult.batch (pySlice st.indices st.pose (st.pose + st.batch_size))
      { st with pose := st.pose + st.batch_size }
  else if st.pose < (st.data_len : Int) ∧ st.drop_last = false then
    NextResult.batch (pySliceFrom st.indices st.pose)
      { st with pose := st.pose + st.batch_size }
  else
    match DataLoaderJax._shuffle cfg { st with pose := 0 } with
    | some st' => NextResult.stop st'
    | none => NextResult.keyError

/-- `DataLoaderJax.__len__`: Python floor division (`Int.fdiv`); `//` by zero
raises `ZeroDivisionError`, modelled as `none`. -/
def DataLoaderJax.len (st : DataLoaderJaxState) : Option Int :=
  if st.batch_size = 0 then none
  else if st.drop_last then some (Int.fdiv st.data_len st.batch_size)
  else some (-(Int.fdiv st.data_len (-st.batch_size)))

/-- How a bounded run of `__next__` calls ended. -/
inductive EpochOutcome where
  | stopped (st : DataLoaderJaxState)
  | keyError
  | fuelOut (st : DataLoaderJaxState)
deriving DecidableEq, Repr

/-- Drive the iterator for up to `fuel` `__next__` calls, collecting the
yielded batches of one epoch, until `StopIteration` (or a key error inside
it). -/
def epochRun (cfg : Config) : Nat → DataLoaderJaxState →
    List (List Nat) × EpochOutcome
  | 0, st => ([], EpochOutcome.fuelOut st)
  | fuel + 1, st =>
    match DataLoaderJax.next cfg st with
    | NextResult.batch b st' =>
      let r := epochRun cfg fuel st'
      (b :: r.1, r.2)
    | NextResult.stop st' => ([], EpochOutcome.stopped st')
    | NextResult.keyError => ([], EpochOutcome.keyError)

/-! ### Helper lemmas -/

theorem randomSplit_length (k : Key) (n : Nat) : (randomSplit k n).length = n := by
  simp [randomSplit]

theorem prngPop_isSome (st : PRNGSequenceState) (h : st.subkeys ≠ []) :
    (PRNGSequence.pop st).isSome := by
  unfold PRNGSequence.pop
  cases h2 : st.subkeys with
  | nil => exact absurd h2 h
  | cons a l => simp

/-- `__next__` succeeds whenever the configured reserve size is at least one,
or the deque is already nonempty. -/
theorem prngNext_isSome (rs : Int) (st : PRNGSequenceState)
    (h : 1 ≤ rs ∨ st.subkeys ≠ []) :
    (PRNGSequence.next rs st).isSome := by
  unfold PRNGSequence.next
  by_cases he : st.subkeys.isEmpty
  · rw [if_pos he]
    rcases h with h | h
    · apply prngPop_isSome
      have hlen : (PRNGSequence.reserve st rs).subkeys.length
          = st.subkeys.length + rs.toNat := by
        unfold PRNGSequence.reserve
        rw [if_pos (by omega : (0:Int) < rs)]
        simp [randomSplit]
      intro hnil
      rw [hnil] at hlen
      simp at hlen
      omega
    · exact absurd (List.isEmpty_iff.mp he) h
  · rw [if_neg he]
    exact prngPop_isSome st (fun hnil => he (List.isEmpty_iff.mpr hnil))

theorem rotate_perm (r : Nat) (xs : List Nat) : (xs.drop r ++ xs.take r).Perm xs := by
  have h : (xs.drop r ++ xs.take r).Perm (xs.take r ++ xs.drop r) :=
    List.perm_append_comm
  rwa [List.take_append_drop] at h

theorem randomPermutation_perm (k : Key) (xs : List Nat) :
    (randomPermutation k xs).Perm xs :=
  rotate_perm _ _

theorem shuffle_isSome (cfg : Config) (st : DataLoaderJaxState)
    (h : 1 ≤ cfg.rng_reserve_size) :
    (DataLoaderJax._shuffle cfg st).isSome := by
  unfold DataLoaderJax._shuffle
  by_cases hs : st.shuffle
  · rw [if_pos hs]
    obtain ⟨⟨k, ks⟩, hk⟩ := Option.isSome_iff_exists.mp
      (prngNext_isSome cfg.rng_reserve_size st.keys (Or.inl h))
    rw [hk]
    rfl
  · rw [if_neg hs]
    rfl

/-- Inversion of a successful `_shuffle`: the index list is permuted, every
other field is unchanged. -/
theorem shuffle_inv (cfg : Config) (s s' : DataLoaderJaxState)
    (h : DataLoaderJax._shuffle cfg s = some s') :
    s'.indices.Perm s.indices ∧ s'.data_len = s.data_len ∧
    s'.batch_size = s.batch_size ∧ s'.shuffle = s.shuffle ∧
    s'.drop_last = s.drop_last ∧ s'.pose = s.pose := by
  unfold DataLoaderJax._shuffle at h
  by_cases hs : s.shuffle
  · rw [if_pos hs] at h
    cases hnext : PRNGSequence.next cfg.rng_reserve_size s.keys with
    | none => rw [hnext] at h; cases h
    | some x =>
      obtain ⟨k, ks⟩ := x
      rw [hnext] at h
      cases h
      exact ⟨randomPermutation_perm _ _, rfl, rfl, rfl, rfl, rfl⟩
  · rw [if_neg hs] at h
    cases h
    exact ⟨List.Perm.refl _, rfl, rfl, rfl, rfl, rfl⟩

/-- What `DataLoaderJax.__init__` guarantees about the constructed state. -/
theorem init_spec (cfg : Config) (N : Nat) (B : Int) (sh dl : Bool)
    (st : DataLoaderJaxState) (h : DataLoaderJax.init cfg N B sh dl = some st) :
    st.data_len = N ∧ st.batch_size = B ∧ st.shuffle = sh ∧ st.drop_last = dl ∧
    st.pose = 0 ∧ st.indices.Perm (List.range N) ∧ st.indices.length = N := by
  obtain ⟨hperm, h1, h2, h3, h4, h5⟩ := shuffle_inv cfg _ st h
  refine ⟨h1, h2, h3, h4, h5, ?_, ?_⟩
  · simpa using hperm
  · have hl := hperm.length_eq
    simpa using hl

theorem pyBound_natCast (len p : Nat) : pyBound len (p : Int) = min p len := by
  unfold pyBound
  rw [if_neg (by omega : ¬ ((p : Int) < 0))]
  simp

theorem pySliceFrom_natCast (xs : List Nat) (p : Nat) :
    pySliceFrom xs (p : Int) = xs.drop p := by
  rw [pySliceFrom, pyBound_natCast]
  rcases le_or_lt p xs.length with h | h
  · rw [min_eq_left h]
  · rw [min_eq_right (le_of_lt h), List.drop_eq_nil_of_le le_rfl,
      List.drop_eq_nil_of_le (le_of_lt h)]

theorem pySlice_natCast (xs : List Nat) (p B : Nat) (h : p + B ≤ xs.length) :
    pySlice xs (p : Int) ((p : Int) + (B : Int)) = (xs.drop p).take B := by
  rw [pySlice]
  have hc : ((p : Int) + (B : Int)) = ((p + B : Nat) : Int) := by push_cast; ring
  rw [hc, pyBound_natCast, pyBound_natCast, min_eq_left h,
    min_eq_left (by omega), List.drop_take]
  congr 1
  omega

theorem fdiv_natCast (m n : Nat) :
    Int.fdiv (m : Int) (n : Int) = ((m / n : Nat) : Int) := by
  cases m with
  | zero => simp [Int.zero_fdiv]
  | succ m => rfl

theorem neg_fdiv_neg_natCast (m n : Nat) (h : 1 ≤ n) :
    -(Int.fdiv (m : Int) (-(n : Int))) = (((m + n - 1) / n : Nat) : Int) := by
  cases n with
  | zero => omega
  | succ n' =>
    cases m with
    | zero =>
      rw [show ((0 : Nat) : Int) = 0 from rfl, Int.zero_fdiv]
      rw [Nat.div_eq_of_lt (by omega)]
      simp
    | succ m' =>
      have h1 : (-(((n' + 1 : Nat) : Int))) = Int.negSucc n' := rfl
      have h2 : Int.fdiv (((m' + 1 : Nat) : Int)) (Int.negSucc n')
          = Int.negSucc (m' / (n' + 1)) := rfl
      rw [h1, h2]
      have h3 : (m' + 1) + (n' + 1) - 1 = m' + (n' + 1) := by omega
      rw [h3, Nat.add_div_right m' (by omega)]
      rw [Int.neg_negSucc]

/-! Equation lemmas for the three branches of `__next__` and for `epochRun`. -/

theorem next_eq_batch_full (cfg : Config) (st : DataLoaderJaxState)
    (h : st.pose + st.batch_size ≤ (st.data_len : Int)) :
    DataLoaderJax.next cfg st =
      NextResult.batch (pySlice st.indices st.pose (st.pose + st.batch_size))
        { st with pose := st.pose + st.batch_size } := by
  unfold DataLoaderJax.next
  rw [if_pos h]

theorem next_eq_batch_tail (cfg : Config) (st : DataLoaderJaxState)
    (h1 : ¬ st.pose + st.batch_size ≤ (st.data_len : Int))
    (h2 : st.pose < (st.data_len : Int) ∧ st.drop_last = false) :
    DataLoaderJax.next cfg st =
      NextResult.batch (pySliceFrom st.indices st.pose)
        { st with pose := st.pose + st.batch_size } := by
  unfold DataLoaderJax.next
  rw [if_neg h1, if_pos h2]

theorem next_eq_stop (cfg : Config) (st st' : DataLoaderJaxState)
    (h1 : ¬ st.pose + st.batch_size ≤ (st.data_len : Int))
    (h2 : ¬ (st.pose < (st.data_len : Int) ∧ st.drop_last = false))
    (hsh : DataLoaderJax._shuffle cfg { st with pose := 0 } = some st') :
    DataLoaderJax.next cfg st = NextResult.stop st' := by
  unfold DataLoaderJax.next
  rw [if_neg h1, if_neg h2, hsh]

theorem epochRun_batch (cfg : Config) (f : Nat) (st : DataLoaderJaxState)
    (b : List Nat) (st' : DataLoaderJaxState)
    (h : DataLoaderJax.next cfg st = NextResult.batch b st') :
    epochRun cfg (f + 1) st =
      (b :: (epochRun cfg f st').1, (epochRun cfg f st').2) := by
  rw [epochRun, h]

theorem epochRun_stop (cfg : Config) (f : Nat) (st st' : DataLoaderJaxState)
    (h : DataLoaderJax.next cfg st = NextResult.stop st') :
    epochRun cfg (f + 1) st = ([], EpochOutcome.stopped st') := by
  rw [epochRun, h]

/-- One epoch with `drop_last = False`, started at cursor position `p`: the
yielded batches concatenate to the remaining suffix of the index permutation,
there are `⌈(data_len - p) / B⌉` of them, and the run ends in
`StopIteration`. -/
theorem epochRun_no_drop (cfg : Config) (B : Nat) (hB : 1 ≤ B)
    (hrs : 1 ≤ cfg.rng_reserve_size) :
    ∀ (fuel : Nat) (st : DataLoaderJaxState) (p : Nat),
      st.drop_last = false → st.batch_size = (B : Int) → st.pose = (p : Int) →
      st.indices.length = st.data_len →
      1 ≤ fuel → st.data_len + 1 ≤ fuel + p →
      (epochRun cfg fuel st).1.flatten = st.indices.drop p ∧
      (epochRun cfg fuel st).1.length = (st.data_len - p + B - 1) / B ∧
      ∃ stFin, (epochRun cfg fuel st).2 = EpochOutcome.stopped stFin := by
  intro fuel
  induction fuel with
  | zero => intro st p _ _ _ _ hf _; omega
  | succ f ih =>
    intro st p hdl hbs hpose hlen _ hfuel
    by_cases h1 : st.pose + st.batch_size ≤ (st.data_len : Int)
    · -- full-batch branch
      have hpB : p + B ≤ st.data_len := by
        rw [hpose, hbs] at h1; omega
      rw [epochRun_batch cfg f st _ _ (next_eq_batch_full cfg st h1)]
      obtain ⟨ihj, ihc, ihs⟩ := ih { st with pose := st.pose + st.batch_size } (p + B)
        hdl hbs
        (show st.pose + st.batch_size = ((p + B : Nat) : Int) by
          rw [hpose, hbs]; push_cast; ring)
        hlen (by omega)
        (show st.data_len + 1 ≤ f + (p + B) by omega)
      refine ⟨?_, ?_, ?_⟩
      · show (pySlice st.indices st.pose (st.pose + st.batch_size) ::
            (epochRun cfg f _).1).flatten = st.indices.drop p
        rw [List.flatten_cons, ihj]
        show pySlice st.indices st.pose (st.pose + st.batch_size) ++
            st.indices.drop (p + B) = st.indices.drop p
        rw [hpose, hbs, pySlice_natCast st.indices p B (by omega)]
        rw [show st.indices.drop (p + B) = (st.indices.drop p).drop B from
          (List.drop_drop B p st.indices).symm]
        exact List.take_append_drop B (st.indices.drop p)
      · show ((pySlice st.indices st.pose (st.pose + st.batch_size) ::
            (epochRun cfg f _).1).length) = (st.data_len - p + B - 1) / B
        rw [List.length_cons, ihc]
        show (st.data_len - (p + B) + B - 1) / B + 1 = (st.data_len - p + B - 1) / B
        rw [Nat.div_eq_sub_div (show 0 < B by omega)
          (show B ≤ st.data_len - p + B - 1 by omega)]
        congr 2
        omega
      · exact ihs
    · by_cases h2 : st.pose < (st.data_len : Int)
      · -- tail branch
        have hpN : p < st.data_len := by rw [hpose] at h2; omega
        have hNpB : st.data_len < p + B := by
          rw [hpose, hbs] at h1; omega
        rw [epochRun_batch cfg f st _ _ (next_eq_batch_tail cfg st h1 ⟨h2, hdl⟩)]
        obtain ⟨ihj, ihc, ihs⟩ := ih { st with pose := st.pose + st.batch_size } (p + B)
          hdl hbs
          (show st.pose + st.batch_size = ((p + B : Nat) : Int) by
            rw [hpose, hbs]; push_cast; ring)
          hlen (by omega)
          (show st.data_len + 1 ≤ f + (p + B) by omega)
        have hnil : st.indices.drop (p + B) = [] :=
          List.drop_eq_nil_of_le (by omega)
        refine ⟨?_, ?_, ?_⟩
        · show (pySliceFrom st.indices st.pose ::
              (epochRun cfg f _).1).flatten = st.indices.drop p
          rw [List.flatten_cons, ihj]
          show pySliceFrom st.indices st.pose ++ st.indices.drop (p + B)
              = st.indices.drop p
          rw [hpose, pySliceFrom_natCast, hnil, List.append_nil]
        · show ((pySliceFrom st.indices st.pose ::
              (epochRun cfg f _).1).length) = (st.data_len - p + B - 1) / B
          rw [List.length_cons, ihc]
          show (st.data_len - (p + B) + B - 1) / B + 1 = (st.data_len - p + B - 1) / B
          rw [Nat.div_eq_of_lt (show st.data_len - (p + B) + B - 1 < B by omega)]
          rw [Nat.div_eq_sub_div (show 0 < B by omega)
            (show B ≤ st.data_len - p + B - 1 by omega)]
          rw [Nat.div_eq_of_lt (show st.data_len - p + B - 1 - B < B by omega)]
        · exact ihs
      · -- exhausted: StopIteration
        have hNp : st.data_len ≤ p := by rw [hpose] at h2; omega
        obtain ⟨stFin, hsh⟩ := Option.isSome_iff_exists.mp
          (shuffle_isSome cfg { st with pose := 0 } hrs)
        rw [epochRun_stop cfg f st stFin
          (next_eq_stop cfg st stFin h1 (fun hc => h2 hc.1) hsh)]
        refine ⟨?_, ?_, stFin, rfl⟩
        · show ([] : List Nat) = st.indices.drop p
          rw [List.drop_eq_nil_of_le (by omega)]
        · show 0 = (st.data_len - p + B - 1) / B
          rw [Nat.div_eq_of_lt (show st.data_len - p + B - 1 < B by omega)]

/-- One epoch with `drop_last = True`, started at cursor position `p ≤ N`:
only full batches of size `B` are yielded, `⌊(N - p) / B⌋` of them, their
concatenation is the first `⌊(N - p) / B⌋ * B` entries of the remaining
suffix of the permutation, and the run ends in `StopIteration`. -/
theorem epochRun_drop (cfg : Config) (B : Nat) (hB : 1 ≤ B)
    (hrs : 1 ≤ cfg.rng_reserve_size) :
    ∀ (fuel : Nat) (st : DataLoaderJaxState) (p : Nat),
      st.drop_last = true → st.batch_size = (B : Int) → st.pose = (p : Int) →
      st.indices.length = st.data_len → p ≤ st.data_len →
      1 ≤ fuel → st.data_len + 1 ≤ fuel + p →
      (epochRun cfg fuel st).1.flatten
        = (st.indices.drop p).take ((st.data_len - p) / B * B) ∧
      (∀ b ∈ (epochRun cfg fuel st).1, b.length = B) ∧
      (epochRun cfg fuel st).1.length = (st.data_len - p) / B ∧
      ∃ stFin, (epochRun cfg fuel st).2 = EpochOutcome.stopped stFin := by
  intro fuel
  induction fuel with
  | zero => intro st p _ _ _ _ _ hf _; omega
  | succ f ih =>
    intro st p hdl hbs hpose hlen hpN _ hfuel
    by_cases h1 : st.pose + st.batch_size ≤ (st.data_len : Int)
    · -- full-batch branch
      have hpB : p + B ≤ st.data_len := by
        rw [hpose, hbs] at h1; omega
      rw [epochRun_batch cfg f st _ _ (next_eq_batch_full cfg st h1)]
      obtain ⟨ihj, ihb, ihc, ihs⟩ := ih { st with pose := st.pose + st.batch_size } (p + B)
        hdl hbs
        (show st.pose + st.batch_size = ((p + B : Nat) : Int) by
          rw [hpose, hbs]; push_cast; ring)
        hlen hpB (by omega)
        (show st.data_len + 1 ≤ f + (p + B) by omega)
      have hq : (st.data_len - p) / B = (st.data_len - (p + B)) / B + 1 := by
        rw [Nat.div_eq_sub_div (show 0 < B by omega) (show B ≤ st.data_len - p by omega)]
        congr 2
        omega
      refine ⟨?_, ?_, ?_, ?_⟩
      · show (pySlice st.indices st.pose (st.pose + st.batch_size) ::
            (epochRun cfg f _).1).flatten
            = (st.indices.drop p).take ((st.data_len - p) / B * B)
        rw [List.flatten_cons, ihj]
        show pySlice st.indices st.pose (st.pose + st.batch_size) ++
            (st.indices.drop (p + B)).take ((st.data_len - (p + B)) / B * B)
            = (st.indices.drop p).take ((st.data_len - p) / B * B)
        rw [hpose, hbs, pySlice_natCast st.indices p B (by omega)]
        rw [hq, Nat.succ_mul, Nat.add_comm ((st.data_len - (p + B)) / B * B) B,
          List.take_add]
        rw [show (st.indices.drop p).drop B = st.indices.drop (p + B) from
          List.drop_drop B p st.indices]
      · intro b hb
        rcases List.mem_cons.mp hb with hb | hb
        · rw [hb]
          show (pySlice st.indices st.pose (st.pose + st.batch_size)).length = B
          rw [hpose, hbs, pySlice_natCast st.indices p B (by omega)]
          rw [List.length_take, List.length_drop]
          omega
        · exact ihb b hb
      · show ((pySlice st.indices st.pose (st.pose + st.batch_size) ::
            (epochRun cfg f _).1).length) = (st.data_len - p) / B
        rw [List.length_cons, ihc, hq]
      · exact ihs
    · -- remaining tail is shorter than a batch: StopIteration
      have hNpB : st.data_len < p + B := by
        rw [hpose, hbs] at h1; omega
      obtain ⟨stFin, hsh⟩ := Option.isSome_iff_exists.mp
        (shuffle_isSome cfg { st with pose := 0 } hrs)
      have h2 : ¬ (st.pose < (st.data_len : Int) ∧ st.drop_last = false) := by
        rintro ⟨-, hc⟩
        rw [hdl] at hc
        cases hc
      rw [epochRun_stop cfg f st stFin (next_eq_stop cfg st stFin h1 h2 hsh)]
      have hq0 : (st.data_len - p) / B = 0 :=
        Nat.div_eq_of_lt (by omega)
      refine ⟨?_, ?_, ?_, stFin, rfl⟩
      · show ([] : List Nat)
            = (st.indices.drop p).take ((st.data_len - p) / B * B)
        rw [hq0, Nat.zero_mul, List.take_zero]
      · intro b hb
        cases hb
      · show 0 = (st.data_len - p) / B
        rw [hq0]

/-! ### Claim theorems -/

/-- C1: for every dataset length `N`, every positive batch size `B` and any
shuffle setting, one full epoch with `drop_last=False` yields batches whose
concatenation is exactly the epoch's index permutation — each of the `N`
indices visited exactly once, none skipped or duplicated, despite the tail
branch advancing the cursor by the full `batch_size` — so the gathered
samples (under any per-index sample map `f`) reconstruct the dataset in
permutation order; the epoch ends in `StopIteration` and `__len__` returns
`⌈N / B⌉`. -/
theorem claim_C1 (cfg : Config) (N B fuel : Nat) (sh : Bool)
    (st : DataLoaderJaxState)
    (hB : 1 ≤ B) (hrs : 1 ≤ cfg.rng_reserve_size) (hfuel : N + 1 ≤ fuel)
    (hinit : DataLoaderJax.init cfg N (B : Int) sh false = some st) :
    (epochRun cfg fuel st).1.flatten = st.indices ∧
    st.indices.Perm (List.range N) ∧
    (∀ f : Nat → Nat,
      ((epochRun cfg fuel st).1.map (List.map f)).flatten = st.indices.map f) ∧
    (epochRun cfg fuel st).1.length = (N + B - 1) / B ∧
    (∃ stFin, (epochRun cfg fuel st).2 = EpochOutcome.stopped stFin) ∧
    DataLoaderJax.len st = some (((N + B - 1) / B : Nat) : Int) := by
  obtain ⟨hN, hbs, hshf, hdl, hpose, hperm, hlen⟩ := init_spec cfg N _ sh false st hinit
  obtain ⟨hj, hc, hs⟩ := epochRun_no_drop cfg B hB hrs fuel st 0 hdl hbs
    (by simp [hpose]) (by rw [hlen, hN]) (by omega) (by omega)
  rw [List.drop_zero] at hj
  refine ⟨hj, hperm, ?_, ?_, hs, ?_⟩
  · intro f
    rw [(List.map_flatten f _).symm, hj]
  · rw [hc, hN, Nat.sub_zero]
  · unfold DataLoaderJax.len
    rw [hbs, hdl, if_neg (show ¬ ((B : Int) = 0) by omega)]
    rw [if_neg (show ¬ (false = true) by simp)]
    rw [hN, neg_fdiv_neg_natCast N B hB]

/-- C2: for every dataset length `N` and every positive batch size `B`, one
full epoch with `drop_last=True` yields only full batches of size `B`,
`⌊N / B⌋` of them, totalling exactly `⌊N / B⌋ * B` samples at pairwise
distinct indices; the epoch ends in `StopIteration` and `__len__` returns
`⌊N / B⌋`. -/
theorem claim_C2 (cfg : Config) (N B fuel : Nat) (sh : Bool)
    (st : DataLoaderJaxState)
    (hB : 1 ≤ B) (hrs : 1 ≤ cfg.rng_reserve_size) (hfuel : N + 1 ≤ fuel)
    (hinit : DataLoaderJax.init cfg N (B : Int) sh true = some st) :
    (∀ b ∈ (epochRun cfg fuel st).1, b.length = B) ∧
    (epochRun cfg fuel st).1.flatten.length = N / B * B ∧
    (epochRun cfg fuel st).1.flatten.Nodup ∧
    (epochRun cfg fuel st).1.length = N / B ∧
    (∃ stFin, (epochRun cfg fuel st).2 = EpochOutcome.stopped stFin) ∧
    DataLoaderJax.len st = some ((N / B : Nat) : Int) := by
  obtain ⟨hN, hbs, hshf, hdl, hpose, hperm, hlen⟩ := init_spec cfg N _ sh true st hinit
  obtain ⟨hj, hb, hc, hs⟩ := epochRun_drop cfg B hB hrs fuel st 0 hdl hbs
    (by simp [hpose]) (by rw [hlen, hN]) (by omega) (by omega) (by omega)
  rw [List.drop_zero, hN, Nat.sub_zero] at hj
  rw [hN, Nat.sub_zero] at hc
  have hnodup : st.indices.Nodup := hperm.nodup_iff.mpr (List.nodup_range N)
  refine ⟨hb, ?_, ?_, hc, hs, ?_⟩
  · rw [hj, List.length_take, hlen]
    exact min_eq_left (Nat.div_mul_le_self N B)
  · rw [hj]
    exact (List.take_sublist _ _).nodup hnodup
  · unfold DataLoaderJax.len
    rw [hbs, hdl, if_neg (show ¬ ((B : Int) = 0) by omega)]
    rw [if_pos rfl, hN, fdiv_natCast N B]

/-- C9: for every dataset length `N ≥ 1` and every batch size `B > N`, one
epoch yields exactly one batch containing all `N` samples when
`drop_last=False`, and yields zero batches when `drop_last=True`. -/
theorem claim_C9 (cfg : Config) (N B fuel : Nat) (sh : Bool)
    (st st2 : DataLoaderJaxState)
    (hN : 1 ≤ N) (hNB : N < B) (hrs : 1 ≤ cfg.rng_reserve_size)
    (hfuel : N + 1 ≤ fuel)
    (h1 : DataLoaderJax.init cfg N (B : Int) sh false = some st)
    (h2 : DataLoaderJax.init cfg N (B : Int) sh true = some st2) :
    (∃ b, (epochRun cfg fuel st).1 = [b] ∧ b.Perm (List.range N) ∧
      b.length = N) ∧
    (epochRun cfg fuel st2).1 = [] := by
  have hB : 1 ≤ B := by omega
  obtain ⟨hN1, hbs1, hshf1, hdl1, hpose1, hperm1, hlen1⟩ :=
    init_spec cfg N _ sh false st h1
  obtain ⟨hj, hc, -⟩ := epochRun_no_drop cfg B hB hrs fuel st 0 hdl1 hbs1
    (by simp [hpose1]) (by rw [hlen1, hN1]) (by omega) (by omega)
  rw [List.drop_zero] at hj
  rw [hN1, Nat.sub_zero] at hc
  have hone : (N + B - 1) / B = 1 := by
    rw [Nat.div_eq_sub_div (by omega) (by omega)]
    rw [Nat.div_eq_of_lt (by omega)]
  rw [hone] at hc
  obtain ⟨b, hbatches⟩ := List.length_eq_one.mp hc
  constructor
  · refine ⟨b, hbatches, ?_, ?_⟩
    · rw [hbatches] at hj
      simp only [List.flatten_cons, List.flatten_nil, List.append_nil] at hj
      rw [hj]
      exact hperm1
    · rw [hbatches] at hj
      simp only [List.flatten_cons, List.flatten_nil, List.append_nil] at hj
      rw [hj, hlen1]
  · obtain ⟨hN2, hbs2, hshf2, hdl2, hpose2, hperm2, hlen2⟩ :=
      init_spec cfg N _ sh true st2 h2
    obtain ⟨-, -, hc2, -⟩ := epochRun_drop cfg B hB hrs fuel st2 0 hdl2 hbs2
      (by simp [hpose2]) (by rw [hlen2, hN2]) (by omega) (by omega) (by omega)
    rw [hN2, Nat.sub_zero, Nat.div_eq_of_lt hNB] at hc2
    exact List.length_eq_zero.mp hc2

/-- C3: two `PRNGSequence` instances constructed with the same seed and
subjected to the same finite sequence of `reserve`/`next` calls (under the
same configured reserve size) return bit-identical sequences of keys. -/
theorem claim_C3 (seed : Nat) (reserveSize : Int) (calls : List PCall)
    (s1 s2 : PRNGSequenceState)
    (h1 : s1 = PRNGSequence.init seed) (h2 : s2 = PRNGSequence.init seed) :
    runCalls reserveSize s1 calls = runCalls reserveSize s2 calls := by
  rw [h1, h2]

/-- C4 counterexample: with `reserve_size = 0` and an empty internal queue,
`__next__` does not refill one key on demand: `reserve(0)` is a no-op, so the
subsequent `popleft` fails (Python's `IndexError`, modelled as `none`) —
refuting the claim that `next` has no error conditions for every
`reserve_size ≥ 0`. -/
theorem claim_C4_counterexample :
    PRNGSequence.next 0 (PRNGSequence.init 42) = none := by
  decide

/-- C4 (amended): `__next__` succeeds whenever the configured `reserve_size`
is at least 1 (the shipped default) or the queue is already nonempty; with
`reserve_size = 0` and an empty queue the call fails instead of refilling one
key on demand. -/
theorem claim_C4_amended (rs : Int) (st : PRNGSequenceState)
    (h : 1 ≤ rs ∨ st.subkeys ≠ []) :
    (PRNGSequence.next rs st).isSome ∧
    PRNGSequence.next 0 (PRNGSequence.init 0) = none :=
  ⟨prngNext_isSome rs st h, by decide⟩

/-- Witness for `claim_C4_amended` at `rs = 1` and a fresh sequence. -/
theorem claim_C4_witness :
    (PRNGSequence.next 1 (PRNGSequence.init 42)).isSome ∧
    PRNGSequence.next 0 (PRNGSequence.init 0) = none :=
  claim_C4_amended 1 (PRNGSequence.init 42) (Or.inl (by decide))

/-- C5 counterexample: constructing `DataLoaderJax` with the non-positive
batch size `0` succeeds — `__init__` performs no batch-size validation and
raises no `InvalidConfiguration`-style error — refuting the claim that
construction fails for `batch_size ≤ 0`. -/
theorem claim_C5_counterexample :
    (0 : Int) ≤ 0 ∧
    (DataLoaderJax.init Config.default 5 0 false false).isSome = true := by
  exact ⟨by decide, by decide⟩

/-- C5 (amended): `__init__` performs no batch-size validation: for every
batch size, positive, zero or negative, construction succeeds (whenever the
configured reserve size is ≥ 1, so the constructor's shuffle can draw a
key). -/
theorem claim_C5_amended (cfg : Config) (N : Nat) (B : Int) (sh dl : Bool)
    (hrs : 1 ≤ cfg.rng_reserve_size) :
    (DataLoaderJax.init cfg N B sh dl).isSome :=
  shuffle_isSome cfg _ hrs

/-- Witness for `claim_C5_amended` at a negative batch size with shuffling. -/
theorem claim_C5_witness :
    (DataLoaderJax.init Config.default 7 (-3) true true).isSome :=
  claim_C5_amended Config.default 7 (-3) true true (by decide)

theorem jnpGet_isSome (xs : List Nat) (i : Int) (h : xs ≠ []) :
    (jnpGet xs i).isSome := by
  cases xs with
  | nil => exact absurd rfl h
  | cons a l => rfl

theorem jnpGet_in_range (xs : List Nat) (i : Int) (h0 : 0 ≤ i)
    (h1 : i < (xs.length : Int)) :
    jnpGet xs i = some (xs.getD i.toNat 0) := by
  cases xs with
  | nil => simp at h1; omega
  | cons a l =>
    show some ((a :: l).getD
        (min (max (if i < 0 then i + (a :: l).length else i) 0)
          (((a :: l).length : Int) - 1)).toNat 0)
      = some ((a :: l).getD i.toNat 0)
    rw [if_neg (by omega : ¬ (i < 0))]
    rw [max_eq_left h0]
    rw [min_eq_left (by omega : i ≤ ((a :: l).length : Int) - 1)]

/-- C6 counterexample: for an `ArrayDataset` over one buffer of length 5, the
out-of-range index 5 does not fail: jax clamps out-of-bounds gather indices,
so `get(5)` returns the last sample — refuting the claim that every index
outside `[0, N)` fails with `IndexOutOfRange`. -/
theorem claim_C6_counterexample :
    ¬ ((5 : Int) < 5) ∧
    ArrayDataset.getitem [[10, 20, 30, 40, 50]] 5 = some [50] := by
  exact ⟨by decide, by decide⟩

/-- C6 (amended): for an `ArrayDataset` of length `N ≥ 1`, `get(i)` never
fails for any integer index: a negative index counts from the end and the
effective gather index is clamped into `[0, N)` (jax gather semantics); for
`i ∈ [0, N)` it returns exactly the `i`-th sample. -/
theorem claim_C6_amended (arrays : List (List Nat)) (N : Nat) (i : Int)
    (hN : 1 ≤ N) (hlen : ∀ a ∈ arrays, a.length = N) :
    (ArrayDataset.getitem arrays i).isSome ∧
    (0 ≤ i → i < (N : Int) →
      ArrayDataset.getitem arrays i
        = some (arrays.map (fun a => a.getD i.toNat 0))) := by
  induction arrays with
  | nil => exact ⟨rfl, fun _ _ => rfl⟩
  | cons a rest ih =>
    have ha : a.length = N := hlen a (by simp)
    have hrest := ih (fun b hb => hlen b (by simp [hb]))
    have hane : a ≠ [] := by
      intro hnil
      rw [hnil] at ha
      simp at ha
      omega
    constructor
    · unfold ArrayDataset.getitem
      obtain ⟨v, hv⟩ := Option.isSome_iff_exists.mp (jnpGet_isSome a i hane)
      obtain ⟨vs, hvs⟩ := Option.isSome_iff_exists.mp hrest.1
      rw [hv, hvs]
      rfl
    · intro hi0 hiN
      unfold ArrayDataset.getitem
      rw [jnpGet_in_range a i hi0 (by rw [ha]; exact hiN), hrest.2 hi0 hiN]
      rfl

/-- Witness for `claim_C6_amended` on a two-column dataset of length 2 at the
in-range index 1. -/
theorem claim_C6_witness :
    (ArrayDataset.getitem [[10, 20], [30, 40]] 1).isSome ∧
    (0 ≤ (1 : Int) → (1 : Int) < ((2 : Nat) : Int) →
      ArrayDataset.getitem [[10, 20], [30, 40]] 1
        = some ([[10, 20], [30, 40]].map (fun a => a.getD (1 : Int).toNat 0))) :=
  claim_C6_amended [[10, 20], [30, 40]] 2 1 (by decide) (by decide)

/-- C7: `ArrayDataset` construction fails (the constructor's assertion — the
spec's `ShapeMismatch`) exactly when the supplied buffers do not all share
the same first-axis size, and succeeds, returning the dataset, exactly when
they all do. -/
theorem claim_C7 (arrays : List (List Nat)) :
    (ArrayDataset.init arrays = none ↔
      ∃ a ∈ arrays, ∃ b ∈ arrays, a.length ≠ b.length) ∧
    (ArrayDataset.init arrays = some arrays ↔
      ∀ a ∈ arrays, ∀ b ∈ arrays, a.length = b.length) := by
  have key : (arrays.all (fun a => (arrays.headD []).length = a.length) = true) ↔
      ∀ a ∈ arrays, ∀ b ∈ arrays, a.length = b.length := by
    rw [List.all_eq_true]
    simp only [decide_eq_true_eq]
    cases arrays with
    | nil => simp
    | cons h t =>
      simp only [List.headD_cons]
      constructor
      · intro hall a ha b hb
        rw [← hall a ha, ← hall b hb]
      · intro hp a ha
        exact hp h (List.mem_cons_self h t) a ha
  unfold ArrayDataset.init
  by_cases hc : arrays.all (fun a => (arrays.headD []).length = a.length) = true
  · rw [if_pos hc]
    refine ⟨⟨?_, ?_⟩, ⟨fun _ => key.mp hc, fun _ => rfl⟩⟩
    · intro h
      cases h
    · rintro ⟨a, ha, b, hb, hne⟩
      exact absurd (key.mp hc a ha b hb) hne
  · rw [if_neg hc]
    have hnot : ¬ ∀ a ∈ arrays, ∀ b ∈ arrays, a.length = b.length :=
      fun hp => hc (key.mpr hp)
    push_neg at hnot
    refine ⟨⟨fun _ => hnot, fun _ => rfl⟩, ⟨?_, fun hp => absurd (key.mpr hp) hc⟩⟩
    intro h
    cases h

/-- The iterator invariant: the `indices` array is a permutation — a
bijection — of `[0, data_len)`. -/
def indicesInvariant (st : DataLoaderJaxState) : Prop :=
  st.indices.Perm (List.range st.data_len)

/-- `__next__` keeps `indices` unchanged in both batch-yielding branches and
permutes it in the `_stop_iteration` reset/reshuffle; `data_len` never
changes. -/
theorem next_preserves_indices (cfg : Config) (st : DataLoaderJaxState) :
    (∀ b st', DataLoaderJax.next cfg st = NextResult.batch b st' →
      st'.indices = st.indices ∧ st'.data_len = st.data_len) ∧
    (∀ st', DataLoaderJax.next cfg st = NextResult.stop st' →
      st'.indices.Perm st.indices ∧ st'.data_len = st.data_len) := by
  unfold DataLoaderJax.next
  by_cases h1 : st.pose + st.batch_size ≤ (st.data_len : Int)
  · rw [if_pos h1]
    refine ⟨?_, ?_⟩
    · intro b st' h
      cases h
      exact ⟨rfl, rfl⟩
    · intro st' h
      cases h
  · rw [if_neg h1]
    by_cases h2 : st.pose < (st.data_len : Int) ∧ st.drop_last = false
    · rw [if_pos h2]
      refine ⟨?_, ?_⟩
      · intro b st' h
        cases h
        exact ⟨rfl, rfl⟩
      · intro st' h
        cases h
    · rw [if_neg h2]
      cases hsh : DataLoaderJax._shuffle cfg { st with pose := 0 } with
      | none =>
        refine ⟨?_, ?_⟩
        · intro b st' h
          cases h
        · intro st' h
          cases h
      | some s2 =>
        refine ⟨?_, ?_⟩
        · intro b st' h
          cases h
        · intro st' h
          cases h
          obtain ⟨hperm, hdlen, -⟩ := shuffle_inv cfg _ s2 hsh
          exact ⟨hperm, hdlen⟩

/-- C8: `indices` is a bijection on `[0, N)` at all times: the invariant
holds right after construction (for both shuffle settings), and every
`__next__` call preserves it — both batch-yielding branches and the
epoch-boundary reset/reshuffle of `_stop_iteration`. -/
theorem claim_C8 :
    (∀ cfg N B sh dl st, DataLoaderJax.init cfg N B sh dl = some st →
      indicesInvariant st) ∧
    (∀ cfg st, indicesInvariant st →
      (∀ b st', DataLoaderJax.next cfg st = NextResult.batch b st' →
        indicesInvariant st') ∧
      (∀ st', DataLoaderJax.next cfg st = NextResult.stop st' →
        indicesInvariant st')) := by
  constructor
  · intro cfg N B sh dl st h
    obtain ⟨hN, -, -, -, -, hperm, -⟩ := init_spec cfg N B sh dl st h
    unfold indicesInvariant
    rw [hN]
    exact hperm
  · intro cfg st hinv
    obtain ⟨hbatch, hstop⟩ := next_preserves_indices cfg st
    constructor
    · intro b st' h
      obtain ⟨hi, hd⟩ := hbatch b st' h
      unfold indicesInvariant at hinv ⊢
      rw [hi, hd]
      exact hinv
    · intro st' h
      obtain ⟨hi, hd⟩ := hstop st' h
      unfold indicesInvariant at hinv ⊢
      rw [hd]
      exact hi.trans hinv

/-- Witness for `claim_C8`: the invariant holds for the state produced by
construction with `N = 3`, `B = 2`, `shuffle=False`. -/
theorem claim_C8_witness :
    indicesInvariant
      { data_len := 3, batch_size := 2, shuffle := false, drop_last := false,
        keys := PRNGSequence.init 42, indices := List.range 3, pose := 0 } :=
  claim_C8.1 Config.default 3 2 false false
    { data_len := 3, batch_size := 2, shuffle := false, drop_last := false,
      keys := PRNGSequence.init 42, indices := List.range 3, pose := 0 }
    (by decide)

/-- C10: the native loader seeds its key sequence from the process-wide
configuration (`global_seed`, default 42) and takes no per-loader seed: the
construction of an unshuffled loader is a pure function of the configuration
and policy with the key state `PRNGSequence.init cfg.global_seed`, and any
two loaders constructed from the same configuration and arguments are
identical states, producing identical epoch permutations and batch
sequences. -/
theorem claim_C10 :
    Config.default.global_seed = 42 ∧
    (∀ cfg N B dl,
      DataLoaderJax.init cfg N B false dl =
        some { data_len := N, batch_size := B, shuffle := false,
               drop_last := dl, keys := PRNGSequence.init cfg.global_seed,
               indices := List.range N, pose := 0 }) ∧
    (∀ cfg N B sh dl st1 st2,
      DataLoaderJax.init cfg N B sh dl = some st1 →
      DataLoaderJax.init cfg N B sh dl = some st2 →
      st1 = st2 ∧ ∀ fuel, epochRun cfg fuel st1 = epochRun cfg fuel st2) := by
  refine ⟨rfl, fun cfg N B dl => rfl, ?_⟩
  intro cfg N B sh dl st1 st2 h1 h2
  rw [h1] at h2
  cases h2
  exact ⟨rfl, fun _ => rfl⟩

/-- Witness for `claim_C10`: two constructions with `N = 4`, `B = 2`,
`shuffle=True` under the default configuration coincide. -/
theorem claim_C10_witness :
    ({ data_len := 4, batch_size := 2, shuffle := true, drop_last := false,
       keys := ⟨⟨42, [0]⟩, []⟩, indices := [3, 0, 1, 2], pose := 0 }
        : DataLoaderJaxState) =
      { data_len := 4, batch_size := 2, shuffle := true, drop_last := false,
        keys := ⟨⟨42, [0]⟩, []⟩, indices := [3, 0, 1, 2], pose := 0 } ∧
    ∀ fuel, epochRun Config.default fuel
        { data_len := 4, batch_size := 2, shuffle := true, drop_last := false,
          keys := ⟨⟨42, [0]⟩, []⟩, indices := [3, 0, 1, 2], pose := 0 }
      = epochRun Config.default fuel
        { data_len := 4, batch_size := 2, shuffle := true, drop_last := false,
          keys := ⟨⟨42, [0]⟩, []⟩, indices := [3, 0, 1, 2], pose := 0 } :=
  claim_C10.2.2 Config.default 4 2 true false _ _ (by decide) (by decide)

/-- Witness for `claim_C3`: both replicas of a fresh seed-42 sequence return
the same keys on the call sequence `next; reserve 2; next; next`. -/
theorem claim_C3_witness :
    runCalls 1 (PRNGSequence.init 42)
        [PCall.next, PCall.reserve 2, PCall.next, PCall.next]
      = runCalls 1 (PRNGSequence.init 42)
        [PCall.next, PCall.reserve 2, PCall.next, PCall.next] :=
  claim_C3 42 1 [PCall.next, PCall.reserve 2, PCall.next, PCall.next] _ _ rfl rfl

/-- Witness for `claim_C1`: `N = 11`, `B = 10`, `shuffle=False`,
`drop_last=False` — batch sizes `[10, 1]`, `__len__` is 2. -/
theorem claim_C1_witness :
    (epochRun Config.default 12
        { data_len := 11, batch_size := 10, shuffle := false,
          drop_last := false, keys := PRNGSequence.init 42,
          indices := List.range 11, pose := 0 }).1.flatten
      = List.range 11 ∧
    (List.range 11).Perm (List.range 11) ∧
    (∀ f : Nat → Nat,
      ((epochRun Config.default 12
          { data_len := 11, batch_size := 10, shuffle := false,
            drop_last := false, keys := PRNGSequence.init 42,
            indices := List.range 11, pose := 0 }).1.map (List.map f)).flatten
        = (List.range 11).map f) ∧
    (epochRun Config.default 12
        { data_len := 11, batch_size := 10, shuffle := false,
          drop_last := false, keys := PRNGSequence.init 42,
          indices := List.range 11, pose := 0 }).1.length = (11 + 10 - 1) / 10 ∧
    (∃ stFin, (epochRun Config.default 12
        { data_len := 11, batch_size := 10, shuffle := false,
          drop_last := false, keys := PRNGSequence.init 42,
          indices := List.range 11, pose := 0 }).2 = EpochOutcome.stopped stFin) ∧
    DataLoaderJax.len
        { data_len := 11, batch_size := 10, shuffle := false,
          drop_last := false, keys := PRNGSequence.init 42,
          indices := List.range 11, pose := 0 }
      = some (((11 + 10 - 1) / 10 : Nat) : Int) :=
  claim_C1 Config.default 11 10 12 false
    { data_len := 11, batch_size := 10, shuffle := false,
      drop_last := false, keys := PRNGSequence.init 42,
      indices := List.range 11, pose := 0 }
    (by decide) (by decide) (by decide) (by decide)

/-- Witness for `claim_C2`: `N = 11`, `B = 10`, `shuffle=False`,
`drop_last=True` — a single full batch of 10 samples, `__len__` is 1. -/
theorem claim_C2_witness :
    (∀ b ∈ (epochRun Config.default 12
        { data_len := 11, batch_size := 10, shuffle := false,
          drop_last := true, keys := PRNGSequence.init 42,
          indices := List.range 11, pose := 0 }).1, b.length = 10) ∧
    (epochRun Config.default 12
        { data_len := 11, batch_size := 10, shuffle := false,
          drop_last := true, keys := PRNGSequence.init 42,
          indices := List.range 11, pose := 0 }).1.flatten.length
      = 11 / 10 * 10 ∧
    (epochRun Config.default 12
        { data_len := 11, batch_size := 10, shuffle := false,
          drop_last := true, keys := PRNGSequence.init 42,
          indices := List.range 11, pose := 0 }).1.flatten.Nodup ∧
    (epochRun Config.default 12
        { data_len := 11, batch_size := 10, shuffle := false,
          drop_last := true, keys := PRNGSequence.init 42,
          indices := List.range 11, pose := 0 }).1.length = 11 / 10 ∧
    (∃ stFin, (epochRun Config.default 12
        { data_len := 11, batch_size := 10, shuffle := false,
          drop_last := true, keys := PRNGSequence.init 42,
          indices := List.range 11, pose := 0 }).2 = EpochOutcome.stopped stFin) ∧
    DataLoaderJax.len
        { data_len := 11, batch_size := 10, shuffle := false,
          drop_last := true, keys := PRNGSequence.init 42,
          indices := List.range 11, pose := 0 }
      = some ((11 / 10 : Nat) : Int) :=
  claim_C2 Config.default 11 10 12 false
    { data_len := 11, batch_size := 10, shuffle := false,
      drop_last := true, keys := PRNGSequence.init 42,
      indices := List.range 11, pose := 0 }
    (by decide) (by decide) (by decide) (by decide)

/-- Witness for `claim_C9`: `N = 3`, `B = 5` — one batch of all 3 samples
without `drop_last`, no batch at all with it. -/
theorem claim_C9_witness :
    (∃ b, (epochRun Config.default 4
        { data_len := 3, batch_size := 5, shuffle := false,
          drop_last := false, keys := PRNGSequence.init 42,
          indices := List.range 3, pose := 0 }).1 = [b] ∧
      b.Perm (List.range 3) ∧ b.length = 3) ∧
    (epochRun Config.default 4
        { data_len := 3, batch_size := 5, shuffle := false,
          drop_last := true, keys := PRNGSequence.init 42,
          indices := List.range 3, pose := 0 }).1 = [] :=
  claim_C9 Config.default 3 5 4 false
    { data_len := 3, batch_size := 5, shuffle := false,
      drop_last := false, keys := PRNGSequence.init 42,
      indices := List.range 3, pose := 0 }
    { data_len := 3, batch_size := 5, shuffle := false,
      drop_last := true, keys := PRNGSequence.init 42,
      indices := List.range 3, pose := 0 }
    (by decide) (by decide) (by decide) (by decide) (by decide) (by decide)

end JaxDataloader
